import Mathlib

/-
Verification of the fiscal-receipt processing service (src/main.py) against its
natural-language specification.

The development shallowly embeds the Python source:
* Python strings are modelled as Lean String / List Char (the service only
  handles ASCII-relevant operations; Python str.strip and Lean trim agree on
  the whitespace characters occurring in this domain).
* Python float values are modelled as PyVal: finite decimals exactly as
  PyFloat (an integer mantissa with a power-of-ten denominator), plus the
  infinities and nan that float(...) accepts textually; the program performs
  no arithmetic on these values, it only parses and stores them, and every
  value in the spec is exactly representable.
* The BeautifulSoup document is modelled post-parse as a tree of elements and
  text nodes (Dom); the BS4 queries used by the source (find / find_all by
  tag, id and CSS class, text flattening) are modelled over that tree.
  Serialising a subtree with str(...) and re-parsing it is the identity on
  the subtree and is modelled as such.
* The relational store is modelled as explicit lists of header and item rows;
  the SQLAlchemy transaction (with conn.begin(): commit on normal exit,
  rollback on exception) is modelled by returning either the updated store or
  the original store.
* Fallible Python code (float(...) and datetime.strptime raising ValueError,
  database faults) is modelled with Except.
-/

/-- Decidable equality for Except, used to evaluate the embedding on
concrete inputs. -/
instance {ε α : Type} [DecidableEq ε] [DecidableEq α] : DecidableEq (Except ε α) := fun x y =>
  match x, y with
  | .error a, .error b =>
    if h : a = b then .isTrue (by rw [h]) else .isFalse (fun hc => h (by injection hc))
  | .error _, .ok _ => .isFalse (fun hc => by injection hc)
  | .ok _, .error _ => .isFalse (fun hc => by injection hc)
  | .ok a, .ok b =>
    if h : a = b then .isTrue (by rw [h]) else .isFalse (fun hc => h (by injection hc))

/-! ## Python string primitives (on lists of characters) -/

/-- Model of Python str.strip(): drop whitespace from both ends. -/
def trimChars (l : List Char) : List Char :=
  ((l.dropWhile Char.isWhitespace).reverse.dropWhile Char.isWhitespace).reverse

/-- Model of Python s.split(sep)[-1] for the one-character separator COLON:
the segment after the last colon (the whole string when no colon occurs). -/
def afterLastColonL (l : List Char) : List Char :=
  (l.reverse.takeWhile (fun c => c != ':')).reverse

/-- Model of Python s.replace(COMMA, DOT): one-character replacement. -/
def replaceCommaDot (l : List Char) : List Char :=
  l.map (fun c => if c == ',' then '.' else c)

/-- Model of Python s.replace(NEWLINE, EMPTY): delete every newline. -/
def dropNl (l : List Char) : List Char :=
  l.filter (fun c => c != '\n')

/-- Decimal value of a list of digit characters (most significant first). -/
def digitsToNat (l : List Char) : Nat :=
  l.foldl (fun a c => a * 10 + (c.toNat - 48)) 0

/-- Bool test that one character list is an initial segment of another. -/
def startsWithL : List Char → List Char → Bool
  | [], _ => true
  | _ :: _, [] => false
  | p :: ps, c :: cs => p == c && startsWithL ps cs

/-! ## Python float() on decimal literals -/

/-- Exact model of the values produced by Python float() on the finite
decimal literals this program feeds it: the rational num / 10 ^ exp.
No arithmetic is ever performed on these values by the source; they are
parsed and stored, so the exact-decimal model is faithful. -/
structure PyFloat where
  num : Int
  exp : Nat
deriving DecidableEq

/-- A Python float value as float() can produce it from receipt text: an
exact finite decimal, one of the two infinities, or nan. -/
inductive PyVal where
  | finite : PyFloat → PyVal
  | posInf : PyVal
  | negInf : PyVal
  | nan : PyVal
deriving DecidableEq

/-- Negation of a Python float value (the effect of a leading minus sign;
the sign of nan is unobservable to this program and is not tracked). -/
def PyVal.negV : PyVal → PyVal
  | .finite x => .finite ⟨-x.num, x.exp⟩
  | .posInf => .negInf
  | .negInf => .posInf
  | .nan => .nan

/-- Unsigned decimal part of Python float() parsing: digits with an optional
dot and fraction digits; at least one digit overall.  (Scientific notation
requires digits and never occurs in the digit-free input classes the
theorems quantify over.) -/
def pyFloatCoreL (l : List Char) : Option PyFloat :=
  let ip := l.takeWhile Char.isDigit
  match l.dropWhile Char.isDigit with
  | [] => if ip.isEmpty then none else some ⟨digitsToNat ip, 0⟩
  | c :: fp =>
    if c == '.' && fp.all Char.isDigit && !(ip.isEmpty && fp.isEmpty) then
      some ⟨digitsToNat ip * 10 ^ fp.length + digitsToNat fp, fp.length⟩
    else none

/-- The textual special forms float() accepts case-insensitively besides
decimal numerals: inf, infinity and nan. -/
def pyFloatSpecials (l : List Char) : Option PyVal :=
  let low := l.map Char.toLower
  if low == ("inf").data || low == ("infinity").data then some .posInf
  else if low == ("nan").data then some .nan
  else none

/-- Unsigned part of Python float() parsing: a decimal numeral or one of the
textual special forms. -/
def pyFloatUnsigned (l : List Char) : Option PyVal :=
  match pyFloatCoreL l with
  | some x => some (.finite x)
  | none => pyFloatSpecials l

/-- Model of Python float(s) on the strings this program feeds it: strip
whitespace, optional sign, then an unsigned decimal numeral or special form;
none models a ValueError being raised. -/
def pyFloatL (l : List Char) : Option PyVal :=
  match trimChars l with
  | [] => none
  | c :: cs =>
    if c == '+' then pyFloatUnsigned cs
    else if c == '-' then (pyFloatUnsigned cs).map PyVal.negV
    else pyFloatUnsigned (c :: cs)

/-- Model of the Python expression (float(s) if s else 0.0): the empty string
is falsy and yields 0.0 without calling float; a non-empty string is passed
to float, which raises ValueError when it is neither a decimal numeral nor a
special form. -/
def pyFloatOrZero (s : String) : Except String PyVal :=
  if s.data.isEmpty then .ok (.finite ⟨0, 0⟩)
  else
    match pyFloatL s.data with
    | some x => .ok x
    | none => .error ("ValueError")

/-! ## Regex models (the three patterns used by the source) -/

/-- Model of re.search for the pattern of one or more digits: the leftmost
maximal run of digit characters. -/
def searchDigitsL : List Char → Option (List Char)
  | [] => none
  | c :: cs =>
    if c.isDigit then some (c :: cs.takeWhile Char.isDigit)
    else searchDigitsL cs

/-- Match a literal character list at the head, returning the rest. -/
def matchLitL : List Char → List Char → Option (List Char)
  | [], rest => some rest
  | _ :: _, [] => none
  | p :: ps, c :: cs => if c == p then matchLitL ps cs else none

/-- Match exactly n digit characters at the head. -/
def takeDigitsN : Nat → List Char → Option (List Char × List Char)
  | 0, l => some ([], l)
  | _ + 1, [] => none
  | n + 1, c :: cs =>
    if c.isDigit then (takeDigitsN n cs).map (fun p => (c :: p.1, p.2))
    else none

/-- Match one given character at the head. -/
def matchCharL (ch : Char) : List Char → Option (List Char)
  | [] => none
  | c :: cs => if c == ch then some cs else none

/-- Match one whitespace character at the head. -/
def takeWs1 : List Char → Option (Char × List Char)
  | [] => none
  | c :: cs => if c.isWhitespace then some (c, cs) else none

/-- Attempt, at a fixed position, a match of the source's date pattern
(the literal label, then optional whitespace, then the captured group of
two digits, slash, two digits, slash, four digits, one whitespace, two
digits, colon, two digits, colon, two digits); returns the captured group. -/
def matchEmissaoAt (l : List Char) : Option (List Char) := do
  let r0 ← matchLitL (("Emissão:").data) l
  let r1 := r0.dropWhile Char.isWhitespace
  let (d2, r2) ← takeDigitsN 2 r1
  let r3 ← matchCharL '/' r2
  let (m2, r4) ← takeDigitsN 2 r3
  let r5 ← matchCharL '/' r4
  let (y4, r6) ← takeDigitsN 4 r5
  let (w, r7) ← takeWs1 r6
  let (h2, r8) ← takeDigitsN 2 r7
  let r9 ← matchCharL ':' r8
  let (mi2, r10) ← takeDigitsN 2 r9
  let r11 ← matchCharL ':' r10
  let (s2, _) ← takeDigitsN 2 r11
  pure (d2 ++ '/' :: m2 ++ '/' :: y4 ++ w :: h2 ++ ':' :: mi2 ++ ':' :: s2)

/-- Model of re.search for the date pattern: captured group of the leftmost
match. -/
def searchEmissaoL : List Char → Option (List Char)
  | [] => none
  | c :: cs =>
    match matchEmissaoAt (c :: cs) with
    | some g => some g
    | none => searchEmissaoL cs

/-- Attempt, at a fixed position, a match of the receipt-number pattern
(the literal label, optional whitespace, then the captured group of one or
more digits). -/
def matchNumeroAt (l : List Char) : Option (List Char) := do
  let r0 ← matchLitL (("Número:").data) l
  let r1 := r0.dropWhile Char.isWhitespace
  let ds := r1.takeWhile Char.isDigit
  if ds.isEmpty then none else pure ds

/-- Model of re.search for the receipt-number pattern: captured group of the
leftmost match. -/
def searchNumeroL : List Char → Option (List Char)
  | [] => none
  | c :: cs =>
    match matchNumeroAt (c :: cs) with
    | some g => some g
    | none => searchNumeroL cs

/-! ## Python datetime -/

/-- Model of a Python datetime value (the fields this program uses). -/
structure PyDateTime where
  year : Nat
  month : Nat
  day : Nat
  hour : Nat
  minute : Nat
  second : Nat
deriving DecidableEq

/-- Gregorian leap-year rule, as implemented by Python's datetime. -/
def isLeap (y : Nat) : Bool :=
  y % 4 == 0 && (y % 100 != 0 || y % 400 == 0)

/-- Number of days in a month, as implemented by Python's datetime. -/
def daysInMonth (y m : Nat) : Nat :=
  if m == 2 then (if isLeap y then 29 else 28)
  else if m == 4 || m == 6 || m == 9 || m == 11 then 30
  else 31

/-- Validity predicate of datetime.datetime's constructor arguments. -/
def validDateTime (y mo d h mi s : Nat) : Bool :=
  decide (1 ≤ y) && decide (y ≤ 9999) && decide (1 ≤ mo) && decide (mo ≤ 12) &&
    decide (1 ≤ d) && decide (d ≤ daysInMonth y mo) &&
    decide (h ≤ 23) && decide (mi ≤ 59) && decide (s ≤ 59)

/-- Model of datetime.strptime(s, the day/month/year space hour:minute:second
format) on the strings this program feeds it (the captured groups of the date
regex, which always carry two-two-four-two-two-two digit fields): reparse the
fields, then apply the constructor validity check; error models ValueError. -/
def strptime_dmY_HMS (l : List Char) : Except String PyDateTime :=
  match (do
    let (d2, r2) ← takeDigitsN 2 l
    let r3 ← matchCharL '/' r2
    let (m2, r4) ← takeDigitsN 2 r3
    let r5 ← matchCharL '/' r4
    let (y4, r6) ← takeDigitsN 4 r5
    let (_, r7) ← takeWs1 r6
    let r7b := r7.dropWhile Char.isWhitespace
    let (h2, r8) ← takeDigitsN 2 r7b
    let r9 ← matchCharL ':' r8
    let (mi2, r10) ← takeDigitsN 2 r9
    let r11 ← matchCharL ':' r10
    let (s2, r12) ← takeDigitsN 2 r11
    if r12.isEmpty then
      pure (digitsToNat y4, digitsToNat m2, digitsToNat d2,
            digitsToNat h2, digitsToNat mi2, digitsToNat s2)
    else none) with
  | none => .error ("ValueError")
  | some (y, mo, d, h, mi, s) =>
    if validDateTime y mo d h mi s then .ok ⟨y, mo, d, h, mi, s⟩
    else .error ("ValueError")

/-- Lines 164-167 of the source: search the date pattern inside a free-text
block; on no match the result is absent; on a match the captured group is
given to strptime, whose ValueError propagates. -/
def extract_emissao (texto : String) : Except String (Option PyDateTime) :=
  match searchEmissaoL texto.data with
  | none => .ok none
  | some g => (strptime_dmY_HMS g).map some

/-- Lines 161-167 of the source: receipt-number search (never raises), then
date search and parse (strptime may raise). -/
def extract_meta_text (texto : String) : Except String (Option String × Option PyDateTime) :=
  let numero := (searchNumeroL texto.data).map (fun ds => (⟨ds⟩ : String))
  match searchEmissaoL texto.data with
  | none => .ok (numero, none)
  | some g => (strptime_dmY_HMS g).map (fun dt => (numero, some dt))

/-! ## The parsed document (BeautifulSoup model) -/

/-- Post-parse model of the markup: an element node carries its tag name, an
optional id attribute, its class list and its children (elements and text
nodes interleaved in document order). -/
inductive Dom where
  | text : String → Dom
  | elem : String → Option String → List String → List Dom → Dom

/-- Tag name of a node (text nodes have none). -/
def Dom.tagD : Dom → String
  | .text _ => ("")
  | .elem t _ _ _ => t

/-- Value of the id attribute of a node. -/
def Dom.idD : Dom → Option String
  | .text _ => none
  | .elem _ i _ _ => i

/-- Class list of a node. -/
def Dom.classesD : Dom → List String
  | .text _ => []
  | .elem _ _ cl _ => cl

/-- Children of a node. -/
def Dom.childrenD : Dom → List Dom
  | .text _ => []
  | .elem _ _ _ cs => cs

mutual
/-- Raw strings of a subtree in document order (model of BS4 .strings). -/
def Dom.strs : Dom → List String
  | .text s => [s]
  | .elem _ _ _ cs => Dom.strsList cs
/-- Raw strings of a forest in document order. -/
def Dom.strsList : List Dom → List String
  | [] => []
  | d :: ds => d.strs ++ Dom.strsList ds
end

mutual
/-- All characters of the raw strings of a subtree, in document order. -/
def Dom.charsAll : Dom → List Char
  | .text s => s.data
  | .elem _ _ _ cs => Dom.charsListAll cs
/-- All characters of the raw strings of a forest. -/
def Dom.charsListAll : List Dom → List Char
  | [] => []
  | d :: ds => d.charsAll ++ Dom.charsListAll ds
end

mutual
/-- Element nodes of a subtree in pre-order: the node itself (when it is an
element) followed by the elements below it (model of the document-order
traversal of BS4 find / find_all). -/
def Dom.subElems : Dom → List Dom
  | .text _ => []
  | .elem t i cl cs => .elem t i cl cs :: Dom.subElemsList cs
/-- Element nodes of a forest in pre-order. -/
def Dom.subElemsList : List Dom → List Dom
  | [] => []
  | d :: ds => d.subElems ++ Dom.subElemsList ds
end

/-- Model of BS4 .text: concatenation of all strings of the subtree. -/
def Dom.textAll (d : Dom) : String :=
  ⟨d.charsAll⟩

/-- Model of Python s.strip() at the String level. -/
def pyStrip (s : String) : String :=
  ⟨trimChars s.data⟩

/-- Join a list of strings with single spaces. -/
def joinSp : List String → String
  | [] => ("")
  | [s] => s
  | s :: r => s ++ (" ") ++ joinSp r

/-- Model of BS4 get_text with a space separator and strip=True: each raw
string is stripped, empty results are skipped, the rest are joined with
single spaces. -/
def getTextSpaceStrip (d : Dom) : String :=
  joinSp ((d.strs.map pyStrip).filter (fun s => !s.data.isEmpty))

/-- Model of element.find(span, class_=cls): first span descendant carrying
the class, in document order. -/
def findClassSpan (cls : String) (row : Dom) : Option Dom :=
  (Dom.subElemsList row.childrenD).find?
    (fun n => n.tagD == ("span") && n.classesD.contains cls)

/-- Model of soup.find(tag, id=i) at document level. -/
def findTagId (tag i : String) (doc : List Dom) : Option Dom :=
  (Dom.subElemsList doc).find? (fun n => n.tagD == tag && n.idD == some i)

/-! ## Field parsing and the document extractor (lines 146-199) -/

/-- One extracted line item (the dict built at lines 194-198). -/
structure LineItem where
  produto : String
  codigo : String
  quantidade : PyVal
  unidade : String
  valor_unitario : PyVal
  valor_total : PyVal
deriving DecidableEq

/-- Lines 182-183: first digit run of the code text with newlines removed;
the unknown sentinel when no digit occurs. -/
def parse_codigo (codigo_bruto : String) : String :=
  match searchDigitsL (dropNl codigo_bruto.data) with
  | some r => ⟨r⟩
  | none => ("N/A")

/-- Line 185 (and identically line 190 for the unit price): take the segment
after the last colon, turn the decimal comma into a dot, strip whitespace,
then apply float-or-default (line 195). -/
def parse_quantidade (bruto : String) : Except String PyVal :=
  pyFloatOrZero ⟨trimChars (replaceCommaDot (afterLastColonL bruto.data))⟩

/-- Line 187: the unit is the stripped segment after the last colon. -/
def parse_unidade (un_bruto : String) : String :=
  ⟨trimChars (afterLastColonL un_bruto.data)⟩

/-- Lines 180-198, one iteration: extract the six fields of one item row.
Text of an absent span defaults per the source (the sentinel for the name,
the empty string for code/quantity/unit/unit-price, the literal 0.0 string
for the total).  Errors model the ValueError float() raises on non-empty
non-numeric input. -/
def parseRow (row : Dom) : Except String LineItem :=
  let nome := match findClassSpan ("txtTit") row with
    | some sp => pyStrip (Dom.textAll sp)
    | none => ("N/A")
  let codigo_bruto := match findClassSpan ("RCod") row with
    | some sp => pyStrip (Dom.textAll sp)
    | none => ("")
  let codigo := parse_codigo codigo_bruto
  let qtd_bruto := match findClassSpan ("Rqtd") row with
    | some sp => pyStrip (Dom.textAll sp)
    | none => ("")
  let un_bruto := match findClassSpan ("RUN") row with
    | some sp => pyStrip (Dom.textAll sp)
    | none => ("")
  let unidade := parse_unidade un_bruto
  let vl_unit_bruto := match findClassSpan ("RvlUnit") row with
    | some sp => pyStrip (Dom.textAll sp)
    | none => ("")
  let vl_total := match findClassSpan ("valor") row with
    | some sp => (⟨replaceCommaDot (trimChars (Dom.textAll sp).data)⟩ : String)
    | none => ("0.0")
  match parse_quantidade qtd_bruto with
  | .error e => .error e
  | .ok quantidade =>
    match parse_quantidade vl_unit_bruto with
    | .error e => .error e
    | .ok valor_unitario =>
      match pyFloatOrZero vl_total with
      | .error e => .error e
      | .ok valor_total =>
        .ok ⟨nome, codigo, quantidade, unidade, valor_unitario, valor_total⟩

/-- Line 175 row selector: a tr element whose id attribute is truthy and
begins with the Item marker. -/
def isItemRow (n : Dom) : Bool :=
  n.tagD == ("tr") &&
    (match n.idD with
     | some s => !s.data.isEmpty && startsWithL (("Item").data) s.data
     | none => false)

/-- Item rows of the table, in document order. -/
def itemRows (tabela : Dom) : List Dom :=
  (Dom.subElems tabela).filter isItemRow

/-- Sequence a fallible parse over a list, stopping at the first error. -/
def mapExceptL (f : α → Except String β) : List α → Except String (List β)
  | [] => .ok []
  | a :: as =>
    match f a with
    | .error e => .error e
    | .ok b =>
      match mapExceptL f as with
      | .error e => .error e
      | .ok bs => .ok (b :: bs)

/-- Lines 172-199: process the items table.  The Python function returns
None when no row matches the Item selector, otherwise the (then necessarily
non-empty) list of parsed rows; a ValueError from float() propagates. -/
def extrair_e_limpar_itens (tabela : Dom) : Except String (Option (List LineItem)) :=
  let itens_rows := itemRows tabela
  if itens_rows.isEmpty then .ok none
  else (mapExceptL parseRow itens_rows).map some

/-- Result shape of the document extractor (line 169). -/
structure ExtractResult where
  itens_df : Option (List LineItem)
  numero_nota : Option String
  data_emissao : Option PyDateTime
deriving DecidableEq

/-- Model of soup.find(div, id=infos) followed by find(li, class_=static
list marker): the info list element, absent when either the metadata block
or the list element inside it is missing. -/
def find_infos_li (doc : List Dom) : Option Dom :=
  match findTagId ("div") ("infos") doc with
  | none => none
  | some d =>
    (Dom.subElemsList d.childrenD).find?
      (fun n => n.tagD == ("li") && n.classesD.contains ("ui-li-static"))

/-- Lines 146-169: locate the items table (absent table means no item data,
not an error), then the metadata block (absent block or list element means
absent number and date, not an error). -/
def extrair_dados_completos (doc : List Dom) : Except String ExtractResult :=
  match (match findTagId ("table") ("tabResult") doc with
         | none => Except.ok none
         | some t => extrair_e_limpar_itens t) with
  | .error e => .error e
  | .ok itens_df =>
    match (match find_infos_li doc with
           | none => Except.ok ((none : Option String), (none : Option PyDateTime))
           | some li => extract_meta_text (getTextSpaceStrip li)) with
    | .error e => .error e
    | .ok meta => .ok ⟨itens_df, meta.1, meta.2⟩

/-! ## Fetch boundary and HTTP errors -/

/-- HTTP-level failure raised by the endpoint (only the status code matters
to the spec; 409 duplicate, 422 extraction failure, 500 fetch/db/unexpected). -/
inductive ApiError where
  | http : Nat → ApiError
deriving DecidableEq

/-- Lines 202-228: the Selenium fetch is an external collaborator, modelled
as an oracle value: either the rendered container markup or a transport
failure.  Any exception inside the try block - a fetch failure or a
ValueError escaping from the extractor - is mapped to an HTTP 500. -/
def buscar_dados_da_url (fetched : Except String (List Dom)) : Except ApiError ExtractResult :=
  match fetched with
  | .error _ => .error (.http 500)
  | .ok doc =>
    match extrair_dados_completos doc with
    | .error _ => .error (.http 500)
    | .ok r => .ok r

/-! ## The relational store and the persistence coordinator -/

/-- One row of the header table (notas_processadas). -/
structure NotaRow where
  id : Nat
  url : String
  nome_estabelecimento : String
  numero_nota : Option String
  data_emissao_nota : Option PyDateTime
  data_processamento : PyDateTime
deriving DecidableEq

/-- One row of the item table (historico_precos). -/
structure ItemRow where
  nota_id : Nat
  item : LineItem
  data_coleta : PyDateTime
deriving DecidableEq

/-- The two tables plus the header sequence counter. -/
structure DB where
  notas : List NotaRow
  historico : List ItemRow
  nextId : Nat
deriving DecidableEq

/-- Lines 103-107: existence check of a header row with exactly this url. -/
def url_ja_processada (url : String) (db : DB) : Bool :=
  db.notas.any (fun n => n.url == url)

/-- Lines 110-127: insert the header row and return its fresh id. -/
def marcar_url_como_processada (url est : String) (num : Option String)
    (dtEm : Option PyDateTime) (now : PyDateTime) (db : DB) : Nat × DB :=
  (db.nextId,
   ⟨db.notas ++ [⟨db.nextId, url, est, num, dtEm, now⟩], db.historico, db.nextId + 1⟩)

/-- Lines 130-141: bulk-insert the item rows.  The external database engine
may fault during the insertion; the fault oracle (some k) models an error
raised after k rows reached the open transaction, leaving a partial item set
in the uncommitted working state. -/
def salvar_dados_no_banco (itens : List LineItem) (nota_id : Nat)
    (now : PyDateTime) (fault : Option Nat) (db : DB) : Except String Nat × DB :=
  if itens.isEmpty then (.ok 0, db)
  else
    match fault with
    | some k =>
      (.error ("DBError"),
       ⟨db.notas, db.historico ++ (itens.take k).map (fun it => ⟨nota_id, it, now⟩), db.nextId⟩)
    | none =>
      (.ok itens.length,
       ⟨db.notas, db.historico ++ itens.map (fun it => ⟨nota_id, it, now⟩), db.nextId⟩)

/-- Success payload of the endpoint (lines 290-296). -/
structure RespOk where
  nota_id : Nat
  registros_salvos : Nat
  numero_nota : Option String
  estabelecimento : String
deriving DecidableEq

/-- Observable outcome of one endpoint call: the HTTP result, the durably
committed store, and whether the fetch collaborator was invoked. -/
structure ProcOut where
  result : Except ApiError RespOk
  db : DB
  fetchInvoked : Bool
deriving DecidableEq

/-- Lines 240-307: the endpoint body.  The transaction opened at line 255
commits exactly when the block exits normally; every raised error (409
duplicate, 500 fetch/extraction, 422 empty extraction, 500 database fault)
rolls the transaction back, so the committed store is the original one. -/
def processar_nota_fiscal (db : DB) (url nome_estabelecimento : String)
    (fetched : Except String (List Dom)) (fault : Option Nat)
    (now : PyDateTime) : ProcOut :=
  if url_ja_processada url db then ⟨.error (.http 409), db, false⟩
  else
    match buscar_dados_da_url fetched with
    | .error e => ⟨.error e, db, true⟩
    | .ok dados =>
      match dados.itens_df with
      | none => ⟨.error (.http 422), db, true⟩
      | some itens =>
        if itens.isEmpty then ⟨.error (.http 422), db, true⟩
        else
          let step := marcar_url_como_processada url nome_estabelecimento
            dados.numero_nota dados.data_emissao now db
          match salvar_dados_no_banco itens step.1 now fault step.2 with
          | (.error _, _) => ⟨.error (.http 500), db, true⟩
          | (.ok n, db2) =>
            ⟨.ok ⟨step.1, n, dados.numero_nota, nome_estabelecimento⟩, db2, true⟩

/-! ## Helper lemmas on characters and lists -/

/-- A digit character is not whitespace. -/
theorem not_ws_of_isDigit {c : Char} (h : c.isDigit = true) : c.isWhitespace = false := by
  cases hw : c.isWhitespace
  · rfl
  · exfalso
    simp only [Char.isWhitespace, Bool.or_eq_true, decide_eq_true_eq] at hw
    rcases hw with ((rfl | rfl) | rfl) | rfl <;> exact absurd h (by decide)

/-- An alphabetic character is not whitespace. -/
theorem not_ws_of_isAlpha {c : Char} (h : c.isAlpha = true) : c.isWhitespace = false := by
  cases hw : c.isWhitespace
  · rfl
  · exfalso
    simp only [Char.isWhitespace, Bool.or_eq_true, decide_eq_true_eq] at hw
    rcases hw with ((rfl | rfl) | rfl) | rfl <;> exact absurd h (by decide)

/-- takeWhile runs through a block that satisfies the predicate. -/
theorem takeWhile_append_of_all {p : Char → Bool} {xs ys : List Char}
    (h : ∀ x ∈ xs, p x = true) :
    (xs ++ ys).takeWhile p = xs ++ ys.takeWhile p := by
  induction xs with
  | nil => simp
  | cons a as ih =>
    rw [List.cons_append, List.takeWhile_cons_of_pos (h a (by simp)), List.cons_append,
      ih (fun x hx => h x (by simp [hx]))]

/-- The digit characters of a small number. -/
theorem digitChar_isDigit {n : Nat} (h : n < 10) : (Nat.digitChar n).isDigit = true := by
  interval_cases n <;> decide

/-- Code of the digit character of a small number. -/
theorem digitChar_toNat {n : Nat} (h : n < 10) : (Nat.digitChar n).toNat = 48 + n := by
  interval_cases n <;> decide

/-- Two zero-padded decimal digit characters decode to the number below 100
they were produced from. -/
theorem digitsToNat_two {n : Nat} (h : n < 100) :
    digitsToNat [Nat.digitChar (n / 10), Nat.digitChar (n % 10)] = n := by
  have h1 : n / 10 < 10 := by omega
  have h2 : n % 10 < 10 := by omega
  simp only [digitsToNat, List.foldl, digitChar_toNat h1, digitChar_toNat h2]
  omega

/-- Four zero-padded decimal digit characters decode to the number below
10000 they were produced from. -/
theorem digitsToNat_four {n : Nat} (h : n < 10000) :
    digitsToNat [Nat.digitChar (n / 1000), Nat.digitChar (n / 100 % 10),
      Nat.digitChar (n / 10 % 10), Nat.digitChar (n % 10)] = n := by
  have h1 : n / 1000 < 10 := by omega
  have h2 : n / 100 % 10 < 10 := by omega
  have h3 : n / 10 % 10 < 10 := by omega
  have h4 : n % 10 < 10 := by omega
  simp only [digitsToNat, List.foldl, digitChar_toNat h1, digitChar_toNat h2,
    digitChar_toNat h3, digitChar_toNat h4]
  omega

/-- First-digit-run extraction over a decomposed input. -/
theorem searchDigitsL_append_run (pre run post : List Char)
    (hpre : ∀ c ∈ pre, c.isDigit = false) (hrun : run ≠ [])
    (hrund : ∀ c ∈ run, c.isDigit = true)
    (hpost : ∀ c ∈ post.take 1, c.isDigit = false) :
    searchDigitsL (pre ++ (run ++ post)) = some run := by
  induction pre with
  | nil =>
    obtain ⟨r0, r2, rfl⟩ := List.exists_cons_of_ne_nil hrun
    rw [List.nil_append, List.cons_append]
    have htw : List.takeWhile Char.isDigit (r2 ++ post) =
        r2 ++ List.takeWhile Char.isDigit post :=
      takeWhile_append_of_all (fun c hc => hrund c (List.mem_cons_of_mem r0 hc))
    have htp : List.takeWhile Char.isDigit post = [] := by
      cases post with
      | nil => rfl
      | cons p ps =>
        exact List.takeWhile_cons_of_neg (by simp [hpost p (by simp)])
    simp only [searchDigitsL, hrund r0 (by simp), if_true, htw, htp, List.append_nil]
  | cons p pre2 ih =>
    rw [List.cons_append]
    simp only [searchDigitsL, hpre p (by simp), Bool.false_eq_true, if_false]
    exact ih (fun c hc => hpre c (by simp [hc]))

/-- Search misses when no digit occurs at all. -/
theorem searchDigitsL_eq_none : ∀ {l : List Char}, (∀ c ∈ l, c.isDigit = false) →
    searchDigitsL l = none
  | [], _ => rfl
  | c :: cs, h => by
    simp only [searchDigitsL, h c (by simp), Bool.false_eq_true, if_false]
    exact searchDigitsL_eq_none (fun d hd => h d (by simp [hd]))

/-- C7: code field parsing.  For every code string decomposing, after newline
removal, into a digit-free prefix, a first non-empty digit run and a rest not
starting with a digit, line 182-183 extracts exactly that first run; and for
every code string with no digit at all it yields the unknown sentinel. -/
theorem C7_code_field_parsing (s : String) (pre run post : List Char)
    (hsplit : dropNl s.data = pre ++ (run ++ post))
    (hpre : ∀ c ∈ pre, c.isDigit = false) (hrun : run ≠ [])
    (hrund : ∀ c ∈ run, c.isDigit = true)
    (hpost : ∀ c ∈ post.take 1, c.isDigit = false) :
    parse_codigo s = ⟨run⟩ ∧
      ∀ s2 : String, (∀ c ∈ dropNl s2.data, c.isDigit = false) →
        parse_codigo s2 = ("N/A") := by
  constructor
  · unfold parse_codigo
    rw [hsplit, searchDigitsL_append_run pre run post hpre hrun hrund hpost]
  · intro s2 h2
    unfold parse_codigo
    rw [searchDigitsL_eq_none h2]

/-- Witness for C7 at a concrete composite code string with an embedded
newline, and at a digit-free string. -/
theorem C7_code_field_parsing_witness :
    parse_codigo ("ab12\n34c") = ("1234") ∧ parse_codigo ("xyz") = ("N/A") := by
  have h := C7_code_field_parsing ("ab12\n34c") (("ab").data) (("1234").data)
    (("c").data) (by decide) (by decide) (by decide) (by decide) (by decide)
  exact ⟨h.1, h.2 ("xyz") (by decide)⟩

/-- Two zero-padded digit characters of a number below 100. -/
def fmt2 (n : Nat) : List Char :=
  [Nat.digitChar (n / 10), Nat.digitChar (n % 10)]

/-- Four zero-padded digit characters of a number below 10000. -/
def fmt4 (n : Nat) : List Char :=
  [Nat.digitChar (n / 1000), Nat.digitChar (n / 100 % 10),
   Nat.digitChar (n / 10 % 10), Nat.digitChar (n % 10)]

/-- A literal matches itself followed by anything. -/
theorem matchLitL_self : ∀ (p rest : List Char), matchLitL p (p ++ rest) = some rest
  | [], _ => rfl
  | c :: ps, rest => by simp [matchLitL, matchLitL_self ps rest]

/-- Two digit characters satisfy the two-digit matcher. -/
theorem takeDigits2_chars {c1 c2 : Char} (h1 : c1.isDigit = true) (h2 : c2.isDigit = true)
    (rest : List Char) : takeDigitsN 2 (c1 :: c2 :: rest) = some ([c1, c2], rest) := by
  simp [takeDigitsN, h1, h2]

/-- Four digit characters satisfy the four-digit matcher. -/
theorem takeDigits4_chars {c1 c2 c3 c4 : Char} (h1 : c1.isDigit = true)
    (h2 : c2.isDigit = true) (h3 : c3.isDigit = true) (h4 : c4.isDigit = true)
    (rest : List Char) :
    takeDigitsN 4 (c1 :: c2 :: c3 :: c4 :: rest) = some ([c1, c2, c3, c4], rest) := by
  simp [takeDigitsN, h1, h2, h3, h4]

/-- One-character matcher hits its own character. -/
theorem matchCharL_self (ch : Char) (rest : List Char) :
    matchCharL ch (ch :: rest) = some rest := by
  simp [matchCharL]

/-- The whitespace matcher accepts a space. -/
theorem takeWs1_space (rest : List Char) : takeWs1 (' ' :: rest) = some (' ', rest) := by
  simp only [takeWs1]
  rw [if_pos (by decide)]

/-- Whitespace skipping passes over a space. -/
theorem dropWhile_ws_space (l : List Char) :
    List.dropWhile Char.isWhitespace (' ' :: l) = List.dropWhile Char.isWhitespace l :=
  List.dropWhile_cons_of_pos (by decide)

/-- Whitespace skipping stops at a digit. -/
theorem dropWhile_ws_digit {c : Char} (hc : c.isDigit = true) (l : List Char) :
    List.dropWhile Char.isWhitespace (c :: l) = c :: l :=
  List.dropWhile_cons_of_neg (by simp [not_ws_of_isDigit hc])

/-- The date pattern cannot match at a position not holding the first literal
character. -/
theorem matchEmissaoAt_cons_ne {c : Char} (hc : (c == 'E') = false) (l : List Char) :
    matchEmissaoAt (c :: l) = none := by
  unfold matchEmissaoAt
  rw [show ("Emissão:").data = 'E' :: ("missão:").data from by decide]
  simp [matchLitL, hc]

/-- The scan skips any prefix free of the literal's first character. -/
theorem searchEmissaoL_append_no_E {pre : List Char}
    (hpre : ∀ c ∈ pre, (c == 'E') = false) (l : List Char) :
    searchEmissaoL (pre ++ l) = searchEmissaoL l := by
  induction pre with
  | nil => rfl
  | cons p ps ih =>
    rw [List.cons_append]
    simp only [searchEmissaoL, matchEmissaoAt_cons_ne (hpre p (by simp))]
    exact ih (fun c hc => hpre c (by simp [hc]))

/-- The scan returns the captured group of a position-zero match. -/
theorem searchEmissaoL_of_matchAt {l g : List Char} (hm : matchEmissaoAt l = some g) :
    searchEmissaoL l = some g := by
  cases l with
  | nil =>
    rw [show matchEmissaoAt ([] : List Char) = none from by decide] at hm
    exact Option.noConfusion hm
  | cons c cs => simp only [searchEmissaoL, hm]

/-- Full reduction of the date-pattern matcher on a well-formed date text. -/
theorem matchEmissaoAt_full {d mo y h mi s : Nat} (tail : List Char)
    (hd : d < 100) (hmo : mo < 100) (hy : y < 10000) (hh : h < 100)
    (hmi : mi < 100) (hs : s < 100) :
    matchEmissaoAt (("Emissão:").data ++ (' ' :: (fmt2 d ++ '/' :: (fmt2 mo ++ '/' ::
        (fmt4 y ++ ' ' :: (fmt2 h ++ ':' :: (fmt2 mi ++ ':' :: (fmt2 s ++ tail)))))))) =
      some (fmt2 d ++ '/' :: (fmt2 mo ++ '/' :: (fmt4 y ++ ' ' ::
        (fmt2 h ++ ':' :: (fmt2 mi ++ ':' :: fmt2 s))))) := by
  have hdA : (Nat.digitChar (d / 10)).isDigit = true := digitChar_isDigit (by omega)
  have hdB : (Nat.digitChar (d % 10)).isDigit = true := digitChar_isDigit (by omega)
  have hmoA : (Nat.digitChar (mo / 10)).isDigit = true := digitChar_isDigit (by omega)
  have hmoB : (Nat.digitChar (mo % 10)).isDigit = true := digitChar_isDigit (by omega)
  have hyA : (Nat.digitChar (y / 1000)).isDigit = true := digitChar_isDigit (by omega)
  have hyB : (Nat.digitChar (y / 100 % 10)).isDigit = true := digitChar_isDigit (by omega)
  have hyC : (Nat.digitChar (y / 10 % 10)).isDigit = true := digitChar_isDigit (by omega)
  have hyD : (Nat.digitChar (y % 10)).isDigit = true := digitChar_isDigit (by omega)
  have hhA : (Nat.digitChar (h / 10)).isDigit = true := digitChar_isDigit (by omega)
  have hhB : (Nat.digitChar (h % 10)).isDigit = true := digitChar_isDigit (by omega)
  have hmiA : (Nat.digitChar (mi / 10)).isDigit = true := digitChar_isDigit (by omega)
  have hmiB : (Nat.digitChar (mi % 10)).isDigit = true := digitChar_isDigit (by omega)
  have hsA : (Nat.digitChar (s / 10)).isDigit = true := digitChar_isDigit (by omega)
  have hsB : (Nat.digitChar (s % 10)).isDigit = true := digitChar_isDigit (by omega)
  unfold matchEmissaoAt
  rw [matchLitL_self]
  simp only [fmt2, fmt4, List.cons_append, List.nil_append]
  simp only [Option.pure_def, Option.bind_eq_bind, Option.some_bind,
    dropWhile_ws_space, dropWhile_ws_digit hdA, dropWhile_ws_digit hhA,
    takeDigits2_chars hdA hdB, takeDigits2_chars hmoA hmoB,
    takeDigits2_chars hhA hhB, takeDigits2_chars hmiA hmiB,
    takeDigits2_chars hsA hsB, takeDigits4_chars hyA hyB hyC hyD,
    matchCharL_self, takeWs1_space]
  simp

/-- Full reduction of the strptime model on a captured date group: the
decoded fields go through the datetime constructor validity check. -/
theorem strptime_fmt_full {d mo y h mi s : Nat} (hd : d < 100) (hmo : mo < 100)
    (hy : y < 10000) (hh : h < 100) (hmi : mi < 100) (hs : s < 100) :
    strptime_dmY_HMS (fmt2 d ++ '/' :: (fmt2 mo ++ '/' :: (fmt4 y ++ ' ' ::
        (fmt2 h ++ ':' :: (fmt2 mi ++ ':' :: fmt2 s))))) =
      (if validDateTime y mo d h mi s = true then .ok ⟨y, mo, d, h, mi, s⟩
       else .error ("ValueError")) := by
  have hdA : (Nat.digitChar (d / 10)).isDigit = true := digitChar_isDigit (by omega)
  have hdB : (Nat.digitChar (d % 10)).isDigit = true := digitChar_isDigit (by omega)
  have hmoA : (Nat.digitChar (mo / 10)).isDigit = true := digitChar_isDigit (by omega)
  have hmoB : (Nat.digitChar (mo % 10)).isDigit = true := digitChar_isDigit (by omega)
  have hyA : (Nat.digitChar (y / 1000)).isDigit = true := digitChar_isDigit (by omega)
  have hyB : (Nat.digitChar (y / 100 % 10)).isDigit = true := digitChar_isDigit (by omega)
  have hyC : (Nat.digitChar (y / 10 % 10)).isDigit = true := digitChar_isDigit (by omega)
  have hyD : (Nat.digitChar (y % 10)).isDigit = true := digitChar_isDigit (by omega)
  have hhA : (Nat.digitChar (h / 10)).isDigit = true := digitChar_isDigit (by omega)
  have hhB : (Nat.digitChar (h % 10)).isDigit = true := digitChar_isDigit (by omega)
  have hmiA : (Nat.digitChar (mi / 10)).isDigit = true := digitChar_isDigit (by omega)
  have hmiB : (Nat.digitChar (mi % 10)).isDigit = true := digitChar_isDigit (by omega)
  have hsA : (Nat.digitChar (s / 10)).isDigit = true := digitChar_isDigit (by omega)
  have hsB : (Nat.digitChar (s % 10)).isDigit = true := digitChar_isDigit (by omega)
  unfold strptime_dmY_HMS
  simp only [fmt2, fmt4, List.cons_append, List.nil_append]
  simp only [Option.pure_def, Option.bind_eq_bind, Option.some_bind,
    dropWhile_ws_digit hhA,
    takeDigits2_chars hdA hdB, takeDigits2_chars hmoA hmoB,
    takeDigits2_chars hhA hhB, takeDigits2_chars hmiA hmiB,
    takeDigits2_chars hsA hsB, takeDigits4_chars hyA hyB hyC hyD,
    matchCharL_self, takeWs1_space]
  simp only [List.isEmpty_nil, if_true]
  rw [digitsToNat_two hd, digitsToNat_two hmo, digitsToNat_two hh,
    digitsToNat_two hmi, digitsToNat_two hs, digitsToNat_four hy]

/-- C5 counterexample: the claim says a pattern match always produces a
timestamp, and a malformed matched date yields an absent result without
error; on a matched but invalid date (day 40) strptime raises ValueError
instead, which escapes the extractor. -/
theorem C5_date_extraction_cex :
    extract_emissao ("ver Emissão: 40/02/2024 10:20:30 fim") = .error ("ValueError") := by
  decide

/-- C5 (amended): on a free-text block whose leftmost date-pattern match
carries digits forming a valid calendar date-time, a timestamp is produced;
when the matched digits are not a valid date-time, strptime raises
ValueError (surfaced as HTTP 500); when the pattern does not occur, the
result is absent and no error is raised. -/
theorem C5_date_extraction (d mo y h mi s : Nat) (pre tail : List Char)
    (hd : d < 100) (hmo : mo < 100) (hy : y < 10000) (hh : h < 100)
    (hmi : mi < 100) (hs : s < 100)
    (hpre : ∀ c ∈ pre, (c == 'E') = false) :
    (validDateTime y mo d h mi s = true →
      extract_emissao ⟨pre ++ (("Emissão:").data ++ (' ' :: (fmt2 d ++ '/' ::
          (fmt2 mo ++ '/' :: (fmt4 y ++ ' ' :: (fmt2 h ++ ':' ::
          (fmt2 mi ++ ':' :: (fmt2 s ++ tail))))))))⟩ =
        .ok (some ⟨y, mo, d, h, mi, s⟩)) ∧
    (validDateTime y mo d h mi s = false →
      extract_emissao ⟨pre ++ (("Emissão:").data ++ (' ' :: (fmt2 d ++ '/' ::
          (fmt2 mo ++ '/' :: (fmt4 y ++ ' ' :: (fmt2 h ++ ':' ::
          (fmt2 mi ++ ':' :: (fmt2 s ++ tail))))))))⟩ =
        .error ("ValueError")) ∧
    (∀ t2 : String, searchEmissaoL t2.data = none → extract_emissao t2 = .ok none) := by
  have hsearch : searchEmissaoL (pre ++ (("Emissão:").data ++ (' ' :: (fmt2 d ++ '/' ::
      (fmt2 mo ++ '/' :: (fmt4 y ++ ' ' :: (fmt2 h ++ ':' ::
      (fmt2 mi ++ ':' :: (fmt2 s ++ tail))))))))) =
      some (fmt2 d ++ '/' :: (fmt2 mo ++ '/' :: (fmt4 y ++ ' ' ::
        (fmt2 h ++ ':' :: (fmt2 mi ++ ':' :: fmt2 s))))) := by
    rw [searchEmissaoL_append_no_E hpre]
    exact searchEmissaoL_of_matchAt (matchEmissaoAt_full tail hd hmo hy hh hmi hs)
  have hbase : extract_emissao ⟨pre ++ (("Emissão:").data ++ (' ' :: (fmt2 d ++ '/' ::
      (fmt2 mo ++ '/' :: (fmt4 y ++ ' ' :: (fmt2 h ++ ':' ::
      (fmt2 mi ++ ':' :: (fmt2 s ++ tail))))))))⟩ =
      ((if validDateTime y mo d h mi s = true
        then (.ok ⟨y, mo, d, h, mi, s⟩ : Except String PyDateTime)
        else .error ("ValueError")).map some) := by
    unfold extract_emissao
    rw [show (⟨pre ++ (("Emissão:").data ++ (' ' :: (fmt2 d ++ '/' ::
        (fmt2 mo ++ '/' :: (fmt4 y ++ ' ' :: (fmt2 h ++ ':' ::
        (fmt2 mi ++ ':' :: (fmt2 s ++ tail))))))))⟩ : String).data =
        pre ++ (("Emissão:").data ++ (' ' :: (fmt2 d ++ '/' ::
        (fmt2 mo ++ '/' :: (fmt4 y ++ ' ' :: (fmt2 h ++ ':' ::
        (fmt2 mi ++ ':' :: (fmt2 s ++ tail)))))))) from rfl]
    rw [hsearch]
    exact congrArg (Except.map some) (strptime_fmt_full hd hmo hy hh hmi hs)
  refine ⟨?_, ?_, ?_⟩
  · intro hv
    rw [hbase, if_pos hv]
    rfl
  · intro hv
    rw [hbase, if_neg (by simp [hv])]
    rfl
  · intro t2 hnone
    unfold extract_emissao
    rw [hnone]

/-- Witness for C5: the spec fixture date parses to the expected timestamp,
an invalid matched date raises, and a block without the pattern yields an
absent result. -/
theorem C5_date_extraction_witness :
    extract_emissao ("Doc Emissão: 01/02/2024 10:20:30 x") =
        .ok (some ⟨2024, 2, 1, 10, 20, 30⟩) ∧
      extract_emissao ("Doc Emissão: 31/02/2024 10:20:30 x") = .error ("ValueError") ∧
      extract_emissao ("sem data") = .ok none := by
  have h1 := C5_date_extraction 1 2 2024 10 20 30 (("Doc ").data) ((" x").data)
    (by decide) (by decide) (by decide) (by decide) (by decide) (by decide) (by decide)
  have h2 := C5_date_extraction 31 2 2024 10 20 30 (("Doc ").data) ((" x").data)
    (by decide) (by decide) (by decide) (by decide) (by decide) (by decide) (by decide)
  refine ⟨?_, ?_, h1.2.2 ("sem data") (by decide)⟩
  · have hv := h1.1 (by decide)
    rw [show (⟨(("Doc ").data) ++ (("Emissão:").data ++ (' ' :: (fmt2 1 ++ '/' ::
        (fmt2 2 ++ '/' :: (fmt4 2024 ++ ' ' :: (fmt2 10 ++ ':' ::
        (fmt2 20 ++ ':' :: (fmt2 30 ++ (" x").data))))))))⟩ : String) =
        ("Doc Emissão: 01/02/2024 10:20:30 x") from by decide] at hv
    exact hv
  · have hv := h2.2.1 (by decide)
    rw [show (⟨(("Doc ").data) ++ (("Emissão:").data ++ (' ' :: (fmt2 31 ++ '/' ::
        (fmt2 2 ++ '/' :: (fmt4 2024 ++ ' ' :: (fmt2 10 ++ ':' ::
        (fmt2 20 ++ ':' :: (fmt2 30 ++ (" x").data))))))))⟩ : String) =
        ("Doc Emissão: 31/02/2024 10:20:30 x") from by decide] at hv
    exact hv

/-! ## C6: extractor totality on missing structure -/

/-- C6: the document extractor never raises for absent structure; an absent
items table yields an absent item sequence, an absent metadata block (or an
absent info list element inside it) yields absent number and date, and when
both are absent the extractor returns the all-absent result without error. -/
theorem C6_extractor_totality (doc : List Dom) :
    (findTagId ("table") ("tabResult") doc = none →
      ∀ r, extrair_dados_completos doc = .ok r → r.itens_df = none) ∧
    (find_infos_li doc = none →
      ∀ r, extrair_dados_completos doc = .ok r →
        r.numero_nota = none ∧ r.data_emissao = none) ∧
    (findTagId ("table") ("tabResult") doc = none → find_infos_li doc = none →
      extrair_dados_completos doc = .ok ⟨none, none, none⟩) := by
  refine ⟨?_, ?_, ?_⟩
  · intro h r hr
    cases hli : find_infos_li doc with
    | none =>
      simp only [extrair_dados_completos, h, hli] at hr
      cases hr
      rfl
    | some li =>
      cases hm : extract_meta_text (getTextSpaceStrip li) with
      | error e =>
        simp only [extrair_dados_completos, h, hli, hm] at hr
        exact Except.noConfusion hr
      | ok meta =>
        simp only [extrair_dados_completos, h, hli, hm] at hr
        cases hr
        rfl
  · intro h r hr
    cases ht : findTagId ("table") ("tabResult") doc with
    | none =>
      simp only [extrair_dados_completos, ht, h] at hr
      cases hr
      exact ⟨rfl, rfl⟩
    | some t =>
      cases he : extrair_e_limpar_itens t with
      | error e =>
        simp only [extrair_dados_completos, ht, he, h] at hr
        exact Except.noConfusion hr
      | ok idf =>
        simp only [extrair_dados_completos, ht, he, h] at hr
        cases hr
        exact ⟨rfl, rfl⟩
  · intro h1 h2
    simp only [extrair_dados_completos, h1, h2]

/-- Witness for C6: a document with neither the items table nor the metadata
block extracts to the all-absent result. -/
theorem C6_extractor_totality_witness :
    extrair_dados_completos [Dom.elem ("div") none [("ui-content")] []] =
      .ok ⟨none, none, none⟩ :=
  (C6_extractor_totality [Dom.elem ("div") none [("ui-content")] []]).2.2 rfl rfl

/-! ## C9: order preservation -/

/-- Index-wise characterisation of a successful fallible map. -/
theorem mapExceptL_ok_spec {α β : Type} {f : α → Except String β} :
    ∀ {xs : List α} {ys : List β}, mapExceptL f xs = .ok ys →
      xs.length = ys.length ∧
      ∀ i (hx : i < xs.length) (hy : i < ys.length),
        f (xs.get ⟨i, hx⟩) = .ok (ys.get ⟨i, hy⟩) := by
  intro xs
  induction xs with
  | nil =>
    intro ys h
    simp only [mapExceptL] at h
    cases h
    exact ⟨rfl, fun i hx _ => absurd hx (by simp)⟩
  | cons a as ih =>
    intro ys h
    cases hfa : f a with
    | error e =>
      simp only [mapExceptL, hfa] at h
      exact Except.noConfusion h
    | ok b =>
      cases hrest : mapExceptL f as with
      | error e =>
        simp only [mapExceptL, hfa, hrest] at h
        exact Except.noConfusion h
      | ok bs =>
        simp only [mapExceptL, hfa, hrest] at h
        cases h
        obtain ⟨hlen, hident⟩ := ih hrest
        refine ⟨by simp [hlen], ?_⟩
        intro i hx hy
        cases i with
        | zero => simpa using hfa
        | succ j =>
          simpa using hident j (by simpa using hx) (by simpa using hy)

/-- C9: order preservation.  A successful extraction lists exactly the item
rows of the table in document order: the sequence has one entry per matching
row and its i-th element is the parse of the i-th matching row. -/
theorem C9_order_preservation (tabela : Dom) (l : List LineItem)
    (h : extrair_e_limpar_itens tabela = .ok (some l)) :
    (itemRows tabela).length = l.length ∧
      ∀ i (hr : i < (itemRows tabela).length) (hl : i < l.length),
        parseRow ((itemRows tabela).get ⟨i, hr⟩) = .ok (l.get ⟨i, hl⟩) := by
  by_cases he : (itemRows tabela).isEmpty = true
  · simp only [extrair_e_limpar_itens, he, if_true] at h
    cases h
  · simp only [extrair_e_limpar_itens, he, Bool.false_eq_true, if_false] at h
    cases hm : mapExceptL parseRow (itemRows tabela) with
    | error e => rw [hm] at h; exact Except.noConfusion h
    | ok ys =>
      rw [hm] at h
      simp only [Except.map] at h
      cases h
      exact mapExceptL_ok_spec hm

/-- Concrete two-row table used to witness order preservation. -/
def tabC9 : Dom :=
  .elem ("table") (some ("tabResult")) []
    [.elem ("tr") (some ("Item1")) []
      [.elem ("span") none [("txtTit")] [.text ("Feijão")],
       .elem ("span") none [("Rqtd")] [.text ("Qtd.: 1,5")]],
     .elem ("tr") (some ("Item2")) []
      [.elem ("span") none [("txtTit")] [.text ("Arroz")],
       .elem ("span") none [("valor")] [.text ("9,90")]]]

/-- Items extracted from the witness table. -/
def itensC9 : List LineItem :=
  [⟨("Feijão"), ("N/A"), .finite ⟨15, 1⟩, (""), .finite ⟨0, 0⟩, .finite ⟨0, 1⟩⟩,
   ⟨("Arroz"), ("N/A"), .finite ⟨0, 0⟩, (""), .finite ⟨0, 0⟩, .finite ⟨990, 2⟩⟩]

/-- Witness for C9 at the concrete two-row table. -/
theorem C9_order_preservation_witness : (itemRows tabC9).length = itensC9.length :=
  (C9_order_preservation tabC9 itensC9 (by decide)).1

/-! ## C8: numeric item fields -/

mutual
/-- Characters of a node found below an element come from that element. -/
theorem subElems_chars_sub {n : Dom} {c : Char} :
    ∀ {d : Dom}, n ∈ Dom.subElems d → c ∈ n.charsAll → c ∈ d.charsAll
  | .text _, hn, _ => absurd hn (by simp [Dom.subElems])
  | .elem t i cl cs, hn, hc => by
    simp only [Dom.subElems] at hn
    rcases List.mem_cons.1 hn with rfl | hn2
    · exact hc
    · simpa [Dom.charsAll] using subElemsList_chars_sub hn2 hc
/-- Characters of a node found below a forest come from that forest. -/
theorem subElemsList_chars_sub {n : Dom} {c : Char} :
    ∀ {cs : List Dom}, n ∈ Dom.subElemsList cs → c ∈ n.charsAll →
      c ∈ Dom.charsListAll cs
  | [], hn, _ => absurd hn (by simp [Dom.subElemsList])
  | d :: ds, hn, hc => by
    simp only [Dom.subElemsList] at hn
    rcases List.mem_append.1 hn with h1 | h2
    · simp only [Dom.charsListAll]
      exact List.mem_append_left _ (subElems_chars_sub h1 hc)
    · simp only [Dom.charsListAll]
      exact List.mem_append_right _ (subElemsList_chars_sub h2 hc)
end

/-- A successful fetch-and-extract pins the oracle and extraction results. -/
theorem buscar_ok_shape {fetched : Except String (List Dom)} {r : ExtractResult}
    (h : buscar_dados_da_url fetched = .ok r) :
    ∃ doc, fetched = .ok doc ∧ extrair_dados_completos doc = .ok r := by
  unfold buscar_dados_da_url at h
  split at h
  · exact Except.noConfusion h
  · rename_i doc
    split at h
    · exact Except.noConfusion h
    · rename_i r2 hr2
      cases h
      exact ⟨doc, rfl, hr2⟩

/-- A successful bulk insert happens without fault and appends exactly the
tagged item rows. -/
theorem salvar_ok_shape {itens : List LineItem} {nota_id : Nat} {now : PyDateTime}
    {fault : Option Nat} {db : DB} {n : Nat} {db2 : DB}
    (hne : itens.isEmpty = false)
    (h : salvar_dados_no_banco itens nota_id now fault db = (.ok n, db2)) :
    fault = none ∧ n = itens.length ∧
      db2 = ⟨db.notas, db.historico ++ itens.map (fun it => ⟨nota_id, it, now⟩),
             db.nextId⟩ := by
  unfold salvar_dados_no_banco at h
  rw [if_neg (by simp [hne])] at h
  cases fault with
  | some k =>
    simp only [] at h
    exact absurd (congrArg Prod.fst h) (by simp)
  | none =>
    simp only [] at h
    cases h
    exact ⟨rfl, rfl, rfl⟩

/-- C1: atomicity of persistence.  Every endpoint call either fails and
leaves the committed store exactly as it was - including on duplicate
detection, fetch or extraction failure, empty extraction, and a database
fault in the middle of item insertion - or succeeds and commits exactly one
header row together with all of its item rows. -/
theorem C1_atomic_persistence (db : DB) (url nome : String)
    (fetched : Except String (List Dom)) (fault : Option Nat) (now : PyDateTime) :
    ((∃ e, (processar_nota_fiscal db url nome fetched fault now).result = .error e) ∧
      (processar_nota_fiscal db url nome fetched fault now).db = db) ∨
    (∃ resp itens numero dtEm,
      itens ≠ [] ∧
      (processar_nota_fiscal db url nome fetched fault now).result = .ok resp ∧
      (processar_nota_fiscal db url nome fetched fault now).db =
        ⟨db.notas ++ [⟨db.nextId, url, nome, numero, dtEm, now⟩],
         db.historico ++ itens.map (fun it => ⟨db.nextId, it, now⟩),
         db.nextId + 1⟩) := by
  simp only [processar_nota_fiscal, marcar_url_como_processada]
  split
  · exact Or.inl ⟨⟨.http 409, rfl⟩, rfl⟩
  · split
    · exact Or.inl ⟨⟨_, rfl⟩, rfl⟩
    · rename_i dados hbusc
      split
      · exact Or.inl ⟨⟨.http 422, rfl⟩, rfl⟩
      · rename_i itens hitens
        split
        · exact Or.inl ⟨⟨.http 422, rfl⟩, rfl⟩
        · rename_i hne
          split
          · exact Or.inl ⟨⟨.http 500, rfl⟩, rfl⟩
          · rename_i n db2 hsal
            right
            obtain ⟨-, -, hdb2⟩ := salvar_ok_shape (by
              cases he : itens.isEmpty
              · rfl
              · exact absurd he (by simpa using hne)) hsal
            refine ⟨⟨db.nextId, n, dados.numero_nota, nome⟩, itens,
              dados.numero_nota, dados.data_emissao, ?_, rfl, ?_⟩
            · intro hnil
              rw [hnil] at hne
              exact hne rfl
            · rw [hdb2]

/-- C3: empty extraction.  When the extraction of a fresh url yields an
absent or empty line-item sequence, the endpoint fails with HTTP 422 and the
committed store is unchanged - no header row and no item rows. -/
theorem C3_empty_extraction (db : DB) (url nome : String) (doc : List Dom)
    (fault : Option Nat) (now : PyDateTime) (r : ExtractResult)
    (hfresh : url_ja_processada url db = false)
    (hex : extrair_dados_completos doc = .ok r)
    (hempty : r.itens_df = none ∨ r.itens_df = some []) :
    processar_nota_fiscal db url nome (.ok doc) fault now =
      ⟨.error (.http 422), db, true⟩ := by
  have hbusc : buscar_dados_da_url (.ok doc) = .ok r := by
    simp only [buscar_dados_da_url, hex]
  simp only [processar_nota_fiscal, hfresh, Bool.false_eq_true, if_false, hbusc]
  rcases hempty with he | he
  · simp [he]
  · simp [he]

/-- Document with an items table holding no item rows, used for the C3
witness. -/
def docSemItens : List Dom :=
  [.elem ("table") (some ("tabResult")) [] [.elem ("tr") (some ("Total")) [] []]]

/-- Witness for C3: a fixture whose table holds no rows with the item marker
fails with 422 and leaves the store untouched. -/
theorem C3_empty_extraction_witness :
    processar_nota_fiscal ⟨[], [], 1⟩ ("http://u3") ("M") (.ok docSemItens) none
        ⟨2024, 1, 1, 0, 0, 0⟩ =
      ⟨.error (.http 422), ⟨[], [], 1⟩, true⟩ :=
  C3_empty_extraction ⟨[], [], 1⟩ ("http://u3") ("M") docSemItens none
    ⟨2024, 1, 1, 0, 0, 0⟩ ⟨none, none, none⟩ (by decide) (by decide) (Or.inl rfl)

/-- Shape of a successful endpoint call: fresh url, fetch invoked, no fault,
and the committed store extended by exactly the new header and its items. -/
theorem processar_ok_shape {db : DB} {url nome : String}
    {fetched : Except String (List Dom)} {fault : Option Nat} {now : PyDateTime}
    {resp : RespOk} {db1 : DB} {fb : Bool}
    (h : processar_nota_fiscal db url nome fetched fault now = ⟨.ok resp, db1, fb⟩) :
    url_ja_processada url db = false ∧ fb = true ∧
      ∃ doc r itens, fetched = .ok doc ∧ extrair_dados_completos doc = .ok r ∧
        r.itens_df = some itens ∧ itens ≠ [] ∧
        resp = ⟨db.nextId, itens.length, r.numero_nota, nome⟩ ∧
        db1 = ⟨db.notas ++ [⟨db.nextId, url, nome, r.numero_nota, r.data_emissao, now⟩],
               db.historico ++ itens.map (fun it => ⟨db.nextId, it, now⟩),
               db.nextId + 1⟩ := by
  simp only [processar_nota_fiscal, marcar_url_como_processada] at h
  split at h
  · exact absurd h (by simp)
  · rename_i hdup
    split at h
    · exact absurd h (by simp)
    · rename_i dados hbusc
      split at h
      · exact absurd h (by simp)
      · rename_i itens hitens
        split at h
        · exact absurd h (by simp)
        · rename_i hne
          split at h
          · exact absurd h (by simp)
          · rename_i n db2 hsal
            obtain ⟨-, hn, hdb2⟩ := salvar_ok_shape (by
              cases he : itens.isEmpty
              · rfl
              · exact absurd he (by simpa using hne)) hsal
            obtain ⟨doc, hdoc, hex⟩ := buscar_ok_shape hbusc
            cases h
            refine ⟨by simpa using hdup, rfl, doc, dados, itens, hdoc, hex, hitens,
              ?_, by rw [hn], by rw [hdb2]⟩
            intro hnil
            rw [hnil] at hne
            exact hne rfl

/-- C2: duplicate-submission check and idempotence.  A url already present
fails with HTTP 409 before any fetch and with the store unchanged; a
successful first call followed by a second call with the same url yields 409
the second time with no fetch and no change, and the store then holds exactly
one header row for the url and exactly its N item rows. -/
theorem C2_duplicate_check (db : DB) (url nome1 nome2 : String)
    (f1 f2 : Except String (List Dom)) (fl1 fl2 : Option Nat) (t1 t2 : PyDateTime)
    (hwf : ∀ ir ∈ db.historico, ir.nota_id < db.nextId) :
    (url_ja_processada url db = true →
      processar_nota_fiscal db url nome1 f1 fl1 t1 = ⟨.error (.http 409), db, false⟩) ∧
    (∀ resp db1 fb,
      processar_nota_fiscal db url nome1 f1 fl1 t1 = ⟨.ok resp, db1, fb⟩ →
      processar_nota_fiscal db1 url nome2 f2 fl2 t2 = ⟨.error (.http 409), db1, false⟩ ∧
      db1.notas.countP (fun nr => nr.url == url) = 1 ∧
      (db1.historico.filter (fun ir => ir.nota_id == resp.nota_id)).length =
        resp.registros_salvos) := by
  constructor
  · intro hdup
    simp only [processar_nota_fiscal, hdup, if_true]
  · intro resp db1 fb h
    obtain ⟨hfresh, -, doc, r, itens, -, -, -, -, hresp, hdb1⟩ := processar_ok_shape h
    have hnotas0 : ∀ nr ∈ db.notas, (nr.url == url) = false := by
      have h2 : ∀ nr ∈ db.notas, ¬ nr.url = url := by
        simpa [url_ja_processada] using hfresh
      intro nr hnr
      simpa using h2 nr hnr
    have hdup1 : url_ja_processada url db1 = true := by
      rw [hdb1]
      simp [url_ja_processada]
    refine ⟨?_, ?_, ?_⟩
    · simp only [processar_nota_fiscal, hdup1, if_true]
    · rw [hdb1]
      simp only [List.countP_append]
      rw [List.countP_eq_zero.2 (by
        intro nr hnr
        simp [hnotas0 nr hnr])]
      simp
    · rw [hdb1, hresp]
      simp only [List.filter_append]
      rw [List.filter_eq_nil_iff.2 (by
        intro ir hir
        have := hwf ir hir
        simp only [beq_iff_eq]
        omega)]
      rw [List.filter_eq_self.2 (by
        intro ir hir
        rcases List.mem_map.1 hir with ⟨it, -, rfl⟩
        simp)]
      simp

/-- Fixture page used for the C2 witness. -/
def docC2 : List Dom :=
  [.elem ("table") (some ("tabResult")) []
    [.elem ("tr") (some ("Item1")) []
      [.elem ("span") none [("txtTit")] [.text ("Arroz 5kg")],
       .elem ("span") none [("Rqtd")] [.text ("Qtd.: 2,000")]]]]

/-- Witness for C2: a fresh url processes once, and the identical second
submission is rejected with 409, leaving the one header row and its one item
row in place. -/
theorem C2_duplicate_check_witness :
    (processar_nota_fiscal
        (processar_nota_fiscal ⟨[], [], 1⟩ ("http://u2") ("M") (.ok docC2) none
          ⟨2024, 1, 1, 0, 0, 0⟩).db
        ("http://u2") ("Outra") (.ok docC2) none ⟨2024, 1, 2, 0, 0, 0⟩).result =
      .error (.http 409) := by
  have h := (C2_duplicate_check ⟨[], [], 1⟩ ("http://u2") ("M") ("Outra")
    (.ok docC2) (.ok docC2) none none ⟨2024, 1, 1, 0, 0, 0⟩ ⟨2024, 1, 2, 0, 0, 0⟩
    (by intro ir hir; simp at hir)).2
    ⟨1, 1, none, ("M")⟩
    ⟨[⟨1, ("http://u2"), ("M"), none, none, ⟨2024, 1, 1, 0, 0, 0⟩⟩],
     [⟨1, ⟨("Arroz 5kg"), ("N/A"), .finite ⟨2000, 3⟩, (""), .finite ⟨0, 0⟩,
       .finite ⟨0, 1⟩⟩, ⟨2024, 1, 1, 0, 0, 0⟩⟩], 2⟩
    true (by decide)
  rw [show (processar_nota_fiscal ⟨[], [], 1⟩ ("http://u2") ("M") (.ok docC2) none
      ⟨2024, 1, 1, 0, 0, 0⟩).db =
      ⟨[⟨1, ("http://u2"), ("M"), none, none, ⟨2024, 1, 1, 0, 0, 0⟩⟩],
       [⟨1, ⟨("Arroz 5kg"), ("N/A"), .finite ⟨2000, 3⟩, (""), .finite ⟨0, 0⟩,
         .finite ⟨0, 1⟩⟩, ⟨2024, 1, 1, 0, 0, 0⟩⟩], 2⟩ from by decide]
  rw [h.1]

/-! ## C10: rows with no recognisable sub-fields -/

/-- A row containing none of the six expected field spans. -/
def noFieldSpans (row : Dom) : Bool :=
  (findClassSpan ("txtTit") row).isNone && (findClassSpan ("RCod") row).isNone &&
    (findClassSpan ("Rqtd") row).isNone && (findClassSpan ("RUN") row).isNone &&
    (findClassSpan ("RvlUnit") row).isNone && (findClassSpan ("valor") row).isNone

/-- The all-defaults line item produced from such a row: sentinel name and
code, zero quantity, empty unit, zero unit price, zero total. -/
def defaultLineItem : LineItem :=
  ⟨("N/A"), ("N/A"), .finite ⟨0, 0⟩, (""), .finite ⟨0, 0⟩, .finite ⟨0, 1⟩⟩

/-- Parsing a row without any recognised field span yields the default item. -/
theorem parseRow_noFieldSpans (row : Dom) (hnf : noFieldSpans row = true) :
    parseRow row = .ok defaultLineItem := by
  simp only [noFieldSpans, Bool.and_eq_true, Option.isNone_iff_eq_none] at hnf
  obtain ⟨⟨⟨⟨⟨h1, h2⟩, h3⟩, h4⟩, h5⟩, h6⟩ := hnf
  simp only [parseRow, h1, h2, h3, h4, h5, h6,
    show parse_quantidade ("") = Except.ok (.finite ⟨0, 0⟩) from by decide,
    show pyFloatOrZero ("0.0") = Except.ok (.finite ⟨0, 1⟩) from by decide,
    show parse_codigo ("") = ("N/A") from by decide,
    show parse_unidade ("") = ("") from by decide, defaultLineItem]

/-- Congruence form of the fallible map on uniformly successful input. -/
theorem mapExceptL_congr_ok {α β : Type} {f : α → Except String β} {g : α → β} :
    ∀ (xs : List α), (∀ a ∈ xs, f a = .ok (g a)) → mapExceptL f xs = .ok (xs.map g)
  | [], _ => rfl
  | a :: as, h => by
    simp only [mapExceptL, h a (by simp),
      mapExceptL_congr_ok as (fun b hb => h b (by simp [hb])), List.map]

/-- C10: a table row with the item marker but none of the expected sub-field
spans still parses to one all-defaults line item, and a fresh page whose item
rows are all such rows is processed successfully (HTTP 201 with one row per
item) rather than failing with ExtractionFailure. -/
theorem C10_default_rows (row : Dom) (db : DB) (url nome : String)
    (doc : List Dom) (tabela : Dom) (now : PyDateTime)
    (_hid : isItemRow row = true) (hnf : noFieldSpans row = true)
    (hfresh : url_ja_processada url db = false)
    (htab : findTagId ("table") ("tabResult") doc = some tabela)
    (hrows : itemRows tabela ≠ [])
    (hall : ∀ rw ∈ itemRows tabela, noFieldSpans rw = true)
    (hinfos : find_infos_li doc = none) :
    parseRow row = .ok defaultLineItem ∧
      (processar_nota_fiscal db url nome (.ok doc) none now).result =
        .ok ⟨db.nextId, (itemRows tabela).length, none, nome⟩ := by
  refine ⟨parseRow_noFieldSpans row hnf, ?_⟩
  have hmap : mapExceptL parseRow (itemRows tabela) =
      .ok ((itemRows tabela).map (fun _ => defaultLineItem)) :=
    mapExceptL_congr_ok _ (fun a ha => parseRow_noFieldSpans a (hall a ha))
  have hie : (itemRows tabela).isEmpty = false := by
    cases hi : itemRows tabela with
    | nil => exact absurd hi hrows
    | cons a as => rfl
  have hext : extrair_e_limpar_itens tabela =
      .ok (some ((itemRows tabela).map (fun _ => defaultLineItem))) := by
    simp only [extrair_e_limpar_itens, hie, Bool.false_eq_true, if_false, hmap, Except.map]
  have hcomp : extrair_dados_completos doc =
      .ok ⟨some ((itemRows tabela).map (fun _ => defaultLineItem)), none, none⟩ := by
    simp only [extrair_dados_completos, htab, hext, hinfos]
  have hbusc : buscar_dados_da_url (.ok doc) =
      .ok ⟨some ((itemRows tabela).map (fun _ => defaultLineItem)), none, none⟩ := by
    simp only [buscar_dados_da_url, hcomp]
  have hne2 : ((itemRows tabela).map (fun _ => defaultLineItem)).isEmpty = false := by
    cases hi : itemRows tabela with
    | nil => exact absurd hi hrows
    | cons a as => rfl
  simp only [processar_nota_fiscal, hfresh, Bool.false_eq_true, if_false, hbusc, hne2,
    marcar_url_como_processada, salvar_dados_no_banco, List.length_map]

/-- Table whose single item row carries no recognisable sub-field spans. -/
def docC10 : List Dom :=
  [.elem ("table") (some ("tabResult")) []
    [.elem ("tr") (some ("Item1")) [] [.elem ("td") none [] [.text ("sem spans")]]]]

/-- Witness for C10 at the concrete fixture: the span-free row parses to the
default item and the page of such rows is accepted with HTTP 201. -/
theorem C10_default_rows_witness :
    parseRow (Dom.elem ("tr") (some ("Item1")) []
        [.elem ("td") none [] [.text ("sem spans")]]) = .ok defaultLineItem ∧
      (processar_nota_fiscal ⟨[], [], 1⟩ ("http://u10") ("M") (.ok docC10) none
          ⟨2024, 1, 1, 0, 0, 0⟩).result = .ok ⟨1, 1, none, ("M")⟩ := by
  have h := C10_default_rows
    (Dom.elem ("tr") (some ("Item1")) [] [.elem ("td") none [] [.text ("sem spans")]])
    ⟨[], [], 1⟩ ("http://u10") ("M") docC10
    (Dom.elem ("table") (some ("tabResult")) []
      [.elem ("tr") (some ("Item1")) [] [.elem ("td") none [] [.text ("sem spans")]]])
    ⟨2024, 1, 1, 0, 0, 0⟩
    (by decide) (by decide) (by decide) rfl
    (fun hh => absurd (congrArg List.length hh) (by decide)) (by decide) rfl
  rw [show (itemRows (Dom.elem ("table") (some ("tabResult")) []
      [.elem ("tr") (some ("Item1")) [] [.elem ("td") none [] [.text ("sem spans")]]])).length
      = 1 from by decide] at h
  exact h
